import Mathlib

/-!
Shallow embedding of the VC4C intrinsics-lowering and assembly-emission code
(src/intermediate/Helper.cpp, src/intrinsics/Intrinsics.cpp and the
KernelInfo serialization unit), together with theorems settling the frozen
claims about it.  Machine integers are modelled as Nat/Int with explicit
wrap-arounds where the C++ code narrows.
-/

namespace VC4C

/-- Subset of the DataType record needed by the lowering code: the scalar
bit count and the vector width (the spec's data model: scalar bitwidth
in 1/8/16/32/64, vector lane count up to 16). -/
structure DataType where
  scalarBitCount : Nat
  vectorWidth : Nat
deriving DecidableEq, Repr

def TYPE_INT8 : DataType := ⟨8, 1⟩

def TYPE_INT16 : DataType := ⟨16, 1⟩

def TYPE_INT32 : DataType := ⟨32, 1⟩

def TYPE_FLOAT : DataType := ⟨32, 1⟩

def TYPE_BOOL : DataType := ⟨1, 1⟩

/-- DataType::getElementType for vector types: same scalar type, width 1. -/
def DataType.getElementType (t : DataType) : DataType := ⟨t.scalarBitCount, 1⟩

/-- The special hardware registers referenced by the lowering helpers. -/
inductive Reg where
  | nopReg
  | elementNumber
  | qpuNumber
  | replicateAll
  | r5rotation
  | sfuRecip
  | sfuRecipSqrt
  | sfuExp2
  | sfuLog2
  | sfuOut
deriving DecidableEq, Repr

/-- Instruction condition codes (ALWAYS / ZERO_SET / ZERO_CLEAR / ...). -/
inductive CondCode where
  | always
  | zeroSet
  | zeroClear
  | negativeSet
  | negativeClear
deriving DecidableEq, Repr

/-- Nop delay reasons used by the lowering helpers. -/
inductive DelayType where
  | waitRegister
  | waitSFU
deriving DecidableEq, Repr

/-- Rotation direction parameter of insertVectorRotation. -/
inductive Direction where
  | up
  | down
deriving DecidableEq, Repr

/-- The Value operand abstraction: literal, small-immediate, register,
local reference, compiler temporary (a fresh local created by
Method::addNewLocal, identified by its allocation index), vector-constant
container, or undefined.  Every value carries a type. -/
inductive Val where
  | literal (i : Int) (ty : DataType)
  | smallImm (v : Nat) (ty : DataType)
  | reg (r : Reg) (ty : DataType)
  | localV (name : String) (ty : DataType)
  | temp (k : Nat) (ty : DataType)
  | container (elems : List Val) (ty : DataType)
  | undef (ty : DataType)

/-- Value::hasType(ValueType::LITERAL). -/
def Val.isLiteral : Val → Bool
  | .literal _ _ => true
  | _ => false

/-- Value::isLiteralValue(): a plain literal or a small-immediate. -/
def Val.isLiteralValue : Val → Bool
  | .literal _ _ => true
  | .smallImm _ _ => true
  | _ => false

/-- Value::isUndefined(). -/
def Val.isUndefined : Val → Bool
  | .undef _ => true
  | _ => false

/-- Value::hasType(ValueType::CONTAINER). -/
def Val.isContainer : Val → Bool
  | .container _ _ => true
  | _ => false

/-- The literal integer payload (value.literal.integer); only meaningful
behind an isLiteral guard, 0 otherwise. -/
def Val.litInt : Val → Int
  | .literal i _ => i
  | _ => 0

/-- The type carried by a value. -/
def Val.ty : Val → DataType
  | .literal _ t => t
  | .smallImm _ t => t
  | .reg _ t => t
  | .localV _ t => t
  | .temp _ t => t
  | .container _ t => t
  | .undef t => t

/-- Value(other.local, newType): the same storage retyped, as in the
constant-folding branches of intrinsifyArithmetic. -/
def Val.withType : Val → DataType → Val
  | .literal i _, t => .literal i t
  | .smallImm v _, t => .smallImm v t
  | .reg r _, t => .reg r t
  | .localV n _, t => .localV n t
  | .temp k _, t => .temp k t
  | .container es _, t => .container es t
  | .undef _, t => .undef t

def INT_ZERO : Val := .literal 0 TYPE_INT8

def INT_ONE : Val := .literal 1 TYPE_INT8

def NOP_REGISTER : Val := .reg .nopReg TYPE_INT32

def ELEMENT_NUMBER_REGISTER : Val := .reg .elementNumber TYPE_INT8

def ROTATION_REGISTER : Val := .reg .r5rotation TYPE_INT32

def UNDEFINED_VALUE : Val := .undef ⟨0, 0⟩

/-- The intermediate-instruction variants touched by the claims, with the
shared extras (condition code, set-flags) where the source sets them. -/
inductive Instr where
  | move (dest src : Val) (cond : CondCode) (setFlags : Bool)
  | op (opcode : String) (dest : Val) (arg0 : Val) (arg1 : Option Val) (cond : CondCode) (setFlags : Bool)
  | vectorRotation (dest src offset : Val)
  | nop (delay : DelayType)
  | semaphoreAdjustment (id : Nat) (increment : Bool)
  | mutexLock (acquire : Bool)

/-- Recognizer for VectorRotation instructions. -/
def Instr.isVecRot : Instr → Bool
  | .vectorRotation _ _ _ => true
  | _ => false

/-- Narrowing of an int64 to the unsigned-char SmallImmediate value slot
(reduction mod 2 to the 8). -/
def u8 (i : Int) : Nat := (i % 256).toNat

/-- Modelled from the spec: SmallImmediate::getIntegerValue().  The
SmallImmediate encodings 0..15 mean the integers 0..15, 16..31 mean
-16..-1, the remaining encodings (small floats, vector-rotation amounts)
carry no integer value.  (SmallImmediate itself is declared outside the
given sources; this follows the spec's description of the encoding.) -/
def smallImmIntegerValue (v : Nat) : Option Int :=
  if v ≤ 15 then some (v : Int)
  else if v ≤ 31 then some ((v : Int) - 32)
  else none

/-- Modelled from the spec: SmallImmediate::fromRotationOffset maps a
rotation amount in 1..15 to the dedicated vector-rotation encoding block
(48 + offset).  Only its non-zero-ness matters for the claims. -/
def fromRotationOffset (v : Nat) : Nat := 48 + v

/-- The applied rotation offset computed from a literal offset:
SmallImmediate(offset.literal.integer), then for direction DOWN replaced
by (16 - offset.literal.integer) % 16 (C++ truncated %, then narrowed to
the unsigned-char slot). -/
def rotLiteralApplied (i : Int) (dir : Direction) : Nat :=
  match dir with
  | .up => u8 i
  | .down => u8 (Int.tmod (16 - i) 16)

/-- The applied rotation offset computed from a small-immediate offset
that carries an integer value (value slot v): unchanged for UP, and
(16 - v) % 16 narrowed back to the slot for DOWN. -/
def rotSmallImmApplied (v : Nat) (dir : Direction) : Nat :=
  match dir with
  | .up => v
  | .down => u8 (Int.tmod (16 - (v : Int)) 16)

/-- intermediate::insertVectorRotation (Helper.cpp): the list of
instructions inserted for rotating src by offset into dest.  A literal
source collapses to a move; a literal or integer small-immediate offset
is normalized (DOWN becomes 16 - k mod 16) and a zero offset collapses to
a move; otherwise the rotation offset is materialized in r5, and every
emitted VectorRotation is preceded by a Nop(WAIT_REGISTER). -/
def insertVectorRotation (src offset dest : Val) (dir : Direction) : List Instr :=
  if src.isLiteralValue then [.move dest src .always false]
  else
    match offset with
    | .literal i oty =>
        let v := rotLiteralApplied i dir
        if v = 0 then [.move dest src .always false]
        else
          [.nop .waitRegister,
           .vectorRotation dest src (.smallImm (fromRotationOffset v) oty)]
    | .smallImm v oty =>
        if (smallImmIntegerValue v).isSome then
          let v2 := rotSmallImmApplied v dir
          if v2 = 0 then [.move dest src .always false]
          else
            [.nop .waitRegister,
             .vectorRotation dest src (.smallImm (fromRotationOffset v2) oty)]
        else
          [.nop .waitRegister, .vectorRotation dest src (.smallImm v oty)]
    | off =>
        match dir with
        | .up =>
            [.move ROTATION_REGISTER off .always false,
             .nop .waitRegister,
             .vectorRotation dest src ROTATION_REGISTER]
        | .down =>
            [.move NOP_REGISTER off .always true,
             .op "sub" ROTATION_REGISTER (.literal 16 TYPE_INT8) (some off) .zeroClear false,
             .move ROTATION_REGISTER INT_ZERO .zeroSet false,
             .nop .waitRegister,
             .vectorRotation dest src ROTATION_REGISTER]

/-- The offset cases in which insertVectorRotation collapses the rotation
to a plain move: a literal offset normalizing to 0, or an
integer-carrying small-immediate offset normalizing to 0. -/
def rotationOffsetZero (offset : Val) (dir : Direction) : Bool :=
  match offset with
  | .literal i _ => rotLiteralApplied i dir == 0
  | .smallImm v _ => (smallImmIntegerValue v).isSome && rotSmallImmApplied v dir == 0
  | _ => false

/-- periphery::insertSFUCall (Helper.cpp): move the argument into the SFU
input register, then two Nop(WAIT_SFU) delay instructions. -/
def insertSFUCall (sfuReg : Reg) (arg : Val) (cond : CondCode) : List Instr :=
  [.move (.reg sfuReg TYPE_FLOAT) arg cond false,
   .nop .waitSFU,
   .nop .waitSFU]

/-- intrinsifySFUInstruction (Intrinsics.cpp): the SFU call sequence
followed by the call-site reset to a move from the SFU output register
into the call's output. -/
def intrinsifySFUInstruction (sfuReg : Reg) (out arg : Val) (cond : CondCode) : List Instr :=
  insertSFUCall sfuReg arg cond ++ [.move out (.reg .sfuOut out.ty) cond false]

/-- The unaryIntrinsicMapping entries that dispatch to
intrinsifySFUInstruction, keyed by the call name (the C++ map lookup is a
substring match; for these exact intrinsic names it coincides with exact
matching). -/
def sfuRegisterFor (name : String) : Option Reg :=
  if name = "vc4cl_sfu_rsqrt" then some .sfuRecipSqrt
  else if name = "vc4cl_sfu_exp2" then some .sfuExp2
  else if name = "vc4cl_sfu_log2" then some .sfuLog2
  else if name = "vc4cl_sfu_recip" then some .sfuRecip
  else none

/-- The intrinsifyUnary dispatch restricted to the four SFU intrinsics.
When the argument is a literal the C++ code folds the call with host
floating-point math (not modelled; the claims only concern non-literal
arguments, for which the SFU rewrite below is taken verbatim). -/
def intrinsifyUnarySFU (name : String) (out arg : Val) (cond : CondCode) : Option (List Instr) :=
  match sfuRegisterFor name with
  | some r => if arg.isLiteral then none else some (intrinsifySFUInstruction r out arg cond)
  | none => none

/-- intrinsifySemaphoreAccess (Intrinsics.cpp): the call is replaced by a
single SemaphoreAdjustment instruction; a non-literal semaphore number or
one outside 0..15 raises a CompilationError. -/
def intrinsifySemaphoreAccess (increment : Bool) (arg0 : Val) : Except String Instr :=
  match arg0 with
  | .literal i _ =>
      if i < 0 ∨ 16 ≤ i then
        .error "Semaphore-number needs to be between 0 and 15"
      else
        .ok (.semaphoreAdjustment i.toNat increment)
  | _ => .error "Semaphore-number needs to be a compile-time constant"

/-- Boolean success test on the lowering result. -/
def isOkE (e : Except String Instr) : Bool :=
  match e with
  | .ok _ => true
  | .error _ => false

/-- intermediate::insertVectorExtraction (Helper.cpp): extracting one lane
of a container is a move for literal containers and otherwise a DOWN
rotation placing the desired lane at position 0. -/
def insertVectorExtraction (containerV index dest : Val) : List Instr :=
  if containerV.isLiteralValue then [.move dest containerV .always false]
  else insertVectorRotation containerV index dest .down

/-- intermediate::insertVectorInsertion (Helper.cpp): rotate the scalar UP
to its lane, build the lane predicate by xor-ing the element-number
register with the index (setting flags), then conditionally move.  The
fresh temporary local is identified by the allocation index k. -/
def insertVectorInsertion (containerV index value : Val) (k : Nat) : List Instr :=
  let tmp := Val.temp k containerV.ty.getElementType
  insertVectorRotation value index tmp .up ++
    [.op "xor" NOP_REGISTER ELEMENT_NUMBER_REGISTER (some index) .always true,
     .move containerV tmp .zeroSet false]

/-- One iteration of the general-case mask loop of
intermediate::insertVectorShuffle (Helper.cpp lines 227-241): an
undefined mask element is replaced by INT_ZERO, a non-literal one raises
a CompilationError, otherwise the lane is copied from source0 (for index
below source0's vector width) or source1 (index reduced by that width)
and inserted at destination lane i.  k is the next fresh-local index
(each iteration allocates two temporaries). -/
def shuffleLane (dest s0 s1 : Val) (i : Nat) (maskElem : Val) (k : Nat) : Except String (List Instr) :=
  let index0 := if maskElem.isUndefined then INT_ZERO else maskElem
  if index0.isLiteral = false then .error "Invalid mask value"
  else
    let idx := index0.litInt
    let w0 : Int := (s0.ty.vectorWidth : Int)
    let containerV := if idx < w0 then s0 else s1
    let idx2 := if w0 ≤ idx then idx - w0 else idx
    let index := Val.literal idx2 TYPE_INT8
    let tmp := Val.temp k containerV.ty.getElementType
    .ok (insertVectorExtraction containerV index tmp ++
         insertVectorInsertion dest (Val.literal (i : Int) TYPE_INT8) tmp (k + 1))

/-- The general-case mask loop of insertVectorShuffle over all mask
elements, lane counter i, fresh-local counter k. -/
def shuffleLanes (dest s0 s1 : Val) : List Val → Nat → Nat → Except String (List Instr)
  | [], _, _ => .ok []
  | e :: rest, i, k => do
      let l ← shuffleLane dest s0 s1 i e k
      let ls ← shuffleLanes dest s0 s1 rest (i + 1) (k + 2)
      .ok (l ++ ls)

/-- The general case of intermediate::insertVectorShuffle (constant
container mask, none of the earlier special cases): first the
unconditional pre-initialization move of the destination to UNDEFINED,
then the per-lane extract/insert loop. -/
def insertVectorShuffleGeneral (dest s0 s1 : Val) (maskElems : List Val) (k : Nat) : Except String (List Instr) := do
  let ls ← shuffleLanes dest s0 s1 maskElems 0 k
  .ok (Instr.move dest UNDEFINED_VALUE .always false :: ls)

/-- isPowerTwo (Intrinsics.cpp): val > 0 and val with val - 1 shares no
bit. -/
def isPowerTwo (i : Int) : Bool :=
  decide (0 < i) && (i.toNat &&& (i.toNat - 1) == 0)

/-- The outcome of one intrinsifyArithmetic dispatch step: a constant
fold into a move, an in-place opcode/argument rewrite of the very same
Operation, or delegation to one of the multi-instruction lowering
routines. -/
inductive ArithLowering where
  | foldToMove (dest src : Val)
  | setOp (opcode : String) (arg0 arg1 : Val)
  | mulSignedSplit
  | udivByConst
  | udivGeneral
  | sdivByConst
  | sdivGeneral

/-- The mul branch of intrinsifyArithmetic (Intrinsics.cpp lines
445-476): literal times literal folds, a literal power of two becomes
shl, types of at most 24 bits become a single in-place mul24, and
everything else goes to the signed split-multiplication routine. -/
def lowerMul (out arg0 arg1 : Val) : ArithLowering :=
  if arg0.isLiteral && arg1.isLiteral then
    .foldToMove (out.withType arg0.ty) (.literal (arg0.litInt * arg1.litInt) arg0.ty)
  else if arg0.isLiteral && isPowerTwo arg0.litInt then
    .setOp "shl" arg1 (.literal ((Nat.log2 arg0.litInt.toNat : Nat) : Int) arg0.ty)
  else if arg1.isLiteral && isPowerTwo arg1.litInt then
    .setOp "shl" arg0 (.literal ((Nat.log2 arg1.litInt.toNat : Nat) : Int) arg1.ty)
  else if max arg0.ty.scalarBitCount arg1.ty.scalarBitCount ≤ 24 then
    .setOp "mul24" arg0 arg1
  else
    .mulSignedSplit

/-- The sdiv branch of intrinsifyArithmetic (Intrinsics.cpp lines
502-524): literal over literal folds with C++ (truncating) division, a
literal power-of-two divisor becomes asr, a literal/container divisor
with dividend width of at most 16 bits goes to the by-constant routine,
and everything else to the iterative signed division. -/
def lowerSdiv (out arg0 arg1 : Val) : ArithLowering :=
  if arg0.isLiteral && arg1.isLiteral then
    .foldToMove (out.withType arg0.ty) (.literal (Int.tdiv arg0.litInt arg1.litInt) arg0.ty)
  else if arg1.isLiteral && isPowerTwo arg1.litInt then
    .setOp "asr" arg0 (.literal ((Nat.log2 arg1.litInt.toNat : Nat) : Int) arg1.ty)
  else if (arg1.isLiteralValue || arg1.isContainer) && arg0.ty.scalarBitCount ≤ 16 then
    .sdivByConst
  else
    .sdivGeneral

/-- The udiv branch of intrinsifyArithmetic (Intrinsics.cpp lines
478-500): literal over literal folds, a literal power-of-two divisor
becomes shr, a literal/container divisor with dividend width of at most
16 bits goes to the by-constant routine, otherwise the iterative
division. -/
def lowerUdiv (out arg0 arg1 : Val) : ArithLowering :=
  if arg0.isLiteral && arg1.isLiteral then
    .foldToMove (out.withType arg0.ty) (.literal (Int.tdiv arg0.litInt arg1.litInt) arg0.ty)
  else if arg1.isLiteral && isPowerTwo arg1.litInt then
    .setOp "shr" arg0 (.literal ((Nat.log2 arg1.litInt.toNat : Nat) : Int) arg1.ty)
  else if (arg1.isLiteralValue || arg1.isContainer) && arg0.ty.scalarBitCount ≤ 16 then
    .udivByConst
  else
    .udivGeneral

/-- The empirically determined relative accuracy of the
division-by-constant path (Intrinsics.cpp). -/
def accuracy : Nat := 16100

/-- The shift amount of calculateConstant (Intrinsics.cpp line 1275):
static_cast of std::log2(divisor * accuracy) plus 2.  The cast truncates
the real log2 toward zero, so for a positive integer argument this is
the floor of log2, i.e. Nat.log2 (d * accuracy never is a power of two,
and the double-precision error of std::log2 is far too small to move the
value across an integer for arguments below 2 to the 32, so the floor is
exact). -/
def calcShift (d : Nat) : Nat := Nat.log2 (d * accuracy) + 2

/-- The multiplication factor of calculateConstant (Intrinsics.cpp line
1276): std::round(2 to the shift / divisor).  For a positive divisor the
quotient is never exactly halfway between integers (that would force the
divisor to be a power of two larger than 2 to the shift), and the
double-precision rounding error is far below the distance to any such
tie, so round-half-away-from-zero equals floor(x + 1/2), here written
with exact natural arithmetic. -/
def calcFactor (d : Nat) : Nat := (2 ^ (calcShift d + 1) + d) / (2 * d)

/-- calculateConstant(Literal, accuracy) (Intrinsics.cpp lines
1273-1282): computes the factor/shift pair, raising a CompilationError
for a shift above 31 or a factor of at least 65535 (the uint16 max). -/
def calculateConstant (d : Nat) : Except String (Nat × Nat) :=
  let shift := calcShift d
  let factor := calcFactor d
  if 31 < shift then
    .error "Unsigned division by constant generated invalid shift offset"
  else if 65535 ≤ factor then
    .error "Unsigned division by constant generated invalid multiplication factor"
  else
    .ok (factor, shift)

/-- The element-wise factor/shift computation for container divisors
(calculateConstant on Value, Intrinsics.cpp lines 1284-1302).
Divisors are taken as non-negative (a non-positive divisor makes the C++
std::log2 call undefined). -/
def calcConstList : List Val → Except String (List Val × List Val)
  | [] => .ok ([], [])
  | e :: rest => do
      let p ← calculateConstant e.litInt.toNat
      let q ← calcConstList rest
      .ok (.literal (p.1 : Int) e.ty.getElementType :: q.1,
           .literal (p.2 : Int) e.ty.getElementType :: q.2)

/-- calculateConstant on a Value divisor: element-wise for containers,
directly on the literal otherwise. -/
def calculateConstantV (divisor : Val) : Except String (Val × Val) :=
  match divisor with
  | .container elems vty => do
      let q ← calcConstList elems
      .ok (.container q.1 vty, .container q.2 vty)
  | d => do
      let p ← calculateConstant d.litInt.toNat
      .ok (.literal (p.1 : Int) d.ty, .literal (p.2 : Int) d.ty)

/-- The instruction sequence emitted by
intrinsifyUnsignedIntegerDivisionByConstant (Intrinsics.cpp lines
1328-1354) for the division case: mul24 of the numerator by the factor,
right-shift by the shift, then the error-fix sequence (recompute q times
d, subtract from n, set flags on d minus that remainder) ending in the
three-move correction (unconditional move of the shifted quotient, plus
add-1 under negative-set and under zero-set).  k is the next fresh-local
index. -/
def udivByConstSeq (nVal dVal factor shiftv out : Val) (k : Nat) : List Instr :=
  let t0 := Val.temp k nVal.ty
  let t1 := Val.temp (k + 1) nVal.ty
  let t2 := Val.temp (k + 2) nVal.ty
  let t3 := Val.temp (k + 3) nVal.ty
  [.op "mul24" t0 nVal (some factor) .always false,
   .op "shr" t1 t0 (some shiftv) .always false,
   .op "mul24" t2 t1 (some dVal) .always false,
   .op "sub" t3 nVal (some t2) .always false,
   .op "sub" NOP_REGISTER dVal (some t3) .always true,
   .move out t1 .always false,
   .op "add" out t1 (some INT_ONE) .negativeSet false,
   .op "add" out t1 (some INT_ONE) .zeroSet false]

/-- intrinsifyUnsignedIntegerDivisionByConstant (Intrinsics.cpp lines
1304-1375, useRemainder = false): guards on the dividend width and the
constant divisor, computes the factor/shift constants and emits the
multiply/shift/correction sequence, the original division being erased. -/
def intrinsifyUnsignedIntegerDivisionByConstant (nVal dVal out : Val) (k : Nat) : Except String (List Instr) :=
  if 16 < nVal.ty.scalarBitCount then
    .error "Division by constant may overflow for argument type"
  else if (dVal.isLiteralValue || dVal.isContainer) = false then
    .error "Can only optimize division by constant"
  else do
    let c ← calculateConstantV dVal
    .ok (udivByConstSeq nVal dVal c.1 c.2 out k)

/-- Follows the claim's words, for comparison with calcShift: the shift
as ceil(log2(d * 16100)) + 2 (the ceiling of the real log2 of n equals
Nat.log2 (n - 1) + 1 for n of at least 2). -/
def specCeilShift (d : Nat) : Nat :=
  (if d * accuracy ≤ 1 then 0 else Nat.log2 (d * accuracy - 1) + 1) + 2

/-- The literal pre-calculation function clz (Intrinsics.cpp lines
1486-1494), inner loop: scan bit indices i from high to low, returning
the first set bit index.  The argument is the two's-complement bit
pattern of the literal as a natural number. -/
def clzLoop (val : Nat) : Nat → Option Nat
  | 0 => none
  | i + 1 => if val.testBit i then some i else clzLoop val i

/-- The literal pre-calculation function clz (Intrinsics.cpp lines
1486-1494): for the scalar bit count w of the type, return w - 1 - i for
the highest set bit i below w, and w when no bit below w is set.  (The
C++ loop index is signed, counting w - 1 down to 0.) -/
def clz (w : Nat) (val : Nat) : Nat :=
  match clzLoop val w with
  | some i => w - 1 - i
  | none => w

/-- The initializer values the binary writer (toBinary in the KernelInfo
unit) can serialize: nested containers, boolean literals (one byte per
vector lane), integer/real literals (their 32-bit immediate, emitted per
lane with as many bytes as the element's physical width), and undefined
values reserving their physical width in zero bytes.  The remaining
value kinds raise a CompilationError there and cannot occur as global
initializers. -/
inductive BinValue where
  | containerB (elems : List BinValue)
  | boolLit (b : Bool) (vectorWidth : Nat)
  | intLit (imm : Nat) (elemPhysWidth : Nat) (vectorWidth : Nat)
  | undefB (physWidth : Nat)

/-- The bytes pushed for one integer/real lane by toBinary: the masked
immediate bytes from most to least significant, gated on the element's
physical width (imm is the 32-bit immediate, below 2 to the 32). -/
def elemBytes (imm pw : Nat) : List Nat :=
  (if 3 < pw then [imm / 2 ^ 24 % 256] else []) ++
    (if 2 < pw then [imm / 2 ^ 16 % 256] else []) ++
      (if 1 < pw then [imm / 2 ^ 8 % 256] else []) ++ [imm % 256]

mutual

/-- toBinary (KernelInfo unit, lines 117-158): append the byte encoding
of an initializer value. -/
def toBinary : BinValue → List Nat
  | .containerB elems => toBinaryList elems
  | .boolLit b w => List.replicate w (if b then 1 else 0)
  | .intLit imm pw w => toBinaryLanes imm pw w
  | .undefB pw => List.replicate pw 0

/-- Container elements are serialized in order. -/
def toBinaryList : List BinValue → List Nat
  | [] => []
  | v :: vs => toBinary v ++ toBinaryList vs

/-- The per-lane loop of the integer/real literal case. -/
def toBinaryLanes (imm pw : Nat) : Nat → List Nat
  | 0 => []
  | w + 1 => elemBytes imm pw ++ toBinaryLanes imm pw w

end

/-- A module global as seen by the data-segment writer: the alignment of
its pointer type and its initializer value. -/
structure GlobalRec where
  alignment : Nat
  value : BinValue

/-- The zero-byte padding loop (while size % alignment is non-zero, push
a zero byte).  A zero alignment would not terminate in C++ (size % 0 is
undefined there); here it pads nothing. -/
def padTo (a : Nat) (bytes : List Nat) : List Nat :=
  bytes ++ List.replicate ((a - bytes.length % a) % a) 0

/-- The per-global byte emission of generateDataSegment (KernelInfo unit
lines 160-175): pad to the global's alignment, then append its
initializer's binary encoding. -/
def dataSegmentCore (globals : List GlobalRec) : List Nat :=
  globals.foldl (fun bytes g => padTo g.alignment bytes ++ toBinary g.value) []

/-- generateDataSegment (KernelInfo unit lines 160-181): the per-global
bytes, padded at the end to a multiple of 8 bytes. -/
def generateDataSegment (globals : List GlobalRec) : List Nat :=
  padTo 8 (dataSegmentCore globals)

/-- A 64-bit stream word assembled from up to eight bytes, little endian
(writeStream writes the 8-byte buffer of the little-endian host). -/
def wordOfBytesLE (bs : List Nat) : Nat :=
  bs.foldr (fun b acc => b + 256 * acc) 0

/-- copyName / the byte stream split into zero-padded 8-byte words. -/
def chunkWords (bs : List Nat) : List Nat :=
  match bs with
  | [] => []
  | b :: rest => wordOfBytesLE (b :: rest.take 7) :: chunkWords (rest.drop 7)
termination_by bs.length
decreasing_by
  simp only [List.length_drop, List.length_cons]
  omega

/-- Name characters are written as their byte values. -/
def bytesOfChars (s : List Char) : List Nat := s.map Char.toNat

/-- A parameter record of the kernel-info header: the packed info
bitfield word, the parameter name and the type name. -/
structure ParamInfoRec where
  value : Nat
  name : List Char
  typeName : List Char

/-- A kernel-info record: the packed info bitfield word, the 64-bit
required-work-group-size field, the kernel name, and the parameter
records. -/
structure KernelInfoRec where
  value : Nat
  workGroupSize : Nat
  name : List Char
  parameters : List ParamInfoRec

/-- ParamInfo::write: the bitfield word, then the zero-padded name and
type-name words. -/
def paramInfoWrite (p : ParamInfoRec) : List Nat :=
  p.value :: (chunkWords (bytesOfChars p.name) ++ chunkWords (bytesOfChars p.typeName))

/-- The parameter records of one kernel, in order. -/
def paramWordsOf : List ParamInfoRec → List Nat
  | [] => []
  | p :: ps => paramInfoWrite p ++ paramWordsOf ps

/-- KernelInfo::write (binary/hex): the bitfield word, the work-group
size word, the zero-padded name words, then every parameter record. -/
def kernelInfoWrite (ki : KernelInfoRec) : List Nat :=
  ki.value :: ki.workGroupSize :: (chunkWords (bytesOfChars ki.name) ++ paramWordsOf ki.parameters)

/-- All kernel-info records of the module, in order. -/
def kernelWordsOf : List KernelInfoRec → List Nat
  | [] => []
  | ki :: kis => kernelInfoWrite ki ++ kernelWordsOf kis

/-- The result of ModuleInfo::write: the emitted 64-bit word stream and
the two offsets stored back into the module-info bitfield. -/
structure ModuleWriteResult where
  stream : List Nat
  globalDataOffset : Nat
  globalDataSize : Nat

/-- ModuleInfo::write (KernelInfo unit lines 183-263) in the binary/hex
modes: magic word (the 32-bit magic twice), module-info word, the
kernel-info records, a zero delimiter word (recording the word count so
far as the global-data offset), the padded global-data segment (its word
count recorded as the global-data size), and a final zero delimiter
before the instruction stream. -/
def moduleWrite (magic32 infoWord : Nat) (kernels : List KernelInfoRec) (globals : List GlobalRec) : ModuleWriteResult :=
  let kernelWords := kernelWordsOf kernels
  let pre := (magic32 + magic32 * 2 ^ 32) :: infoWord :: (kernelWords ++ [0])
  let offset := pre.length
  let dataBytes := generateDataSegment globals
  let dataWords := chunkWords dataBytes
  let size := dataBytes.length / 8
  ⟨pre ++ (dataWords ++ [0]), offset, size⟩

/-- The leading-sigil stripping of getKernelInfos: drop the first
character when it equals c, keep the name unchanged otherwise (the C++
index-0 read of an empty std::string yields the null character and
strips nothing). -/
def dropLeadChar (c : Char) (s : List Char) : List Char :=
  match s with
  | [] => []
  | x :: xs => if x = c then xs else x :: xs

/-- A method parameter as consumed by getKernelInfos: the explicit
parameter name, the IR local name used as fallback, the original type
name, and the packed flag/size bitfield (whose layout lives outside the
given sources and is carried opaquely). -/
structure ParameterRec where
  parameterName : List Char
  name : List Char
  origTypeName : List Char
  infoWord : Nat

/-- A method as consumed by getKernelInfos: its IR name, the
required-work-group-size metadata, and its parameters. -/
structure MethodRec where
  name : List Char
  workGroupSizes : List Nat
  parameters : List ParameterRec

/-- The work-group-size packing loop of getKernelInfos: or the sizes
into one 64-bit field at bit offsets 0, 16, 32, ... -/
def packWGS : List Nat → Nat → Nat
  | [], _ => 0
  | s :: rest, off => (s <<< off) ||| packWGS rest (off + 16)

/-- Modelled from the spec: the kernel-info bitfield packs the length,
the offset (in instructions) and flag bits into one 64-bit word; the
concrete layout (KernelInfo.h) is outside the given sources. -/
def packKernel (offset len : Nat) : Nat := offset + len * 2 ^ 32

/-- qpu_asm::getKernelInfos (KernelInfo unit lines 265-332), restricted
to the header fields modelled here: offset/length, the packed
required-work-group-size word, the kernel name with a single leading at
sign stripped, and per parameter the packed info word and the name (the
explicit parameter name, or the IR local name when empty) with a single
leading percent sign stripped. -/
def getKernelInfos (m : MethodRec) (initialOffset numInstructions : Nat) : KernelInfoRec :=
  { value := packKernel initialOffset numInstructions
  , workGroupSize := packWGS m.workGroupSizes 0
  , name := dropLeadChar '@' m.name
  , parameters := m.parameters.map fun p =>
      let paramName := if p.parameterName = [] then p.name else p.parameterName
      { value := p.infoWord
      , name := dropLeadChar '%' paramName
      , typeName := p.origTypeName } }

/-! ## Helper lemmas -/

theorem log2_7acc : Nat.log2 (7 * accuracy) = 16 := by
  rw [accuracy, Nat.log2_eq_log_two]
  exact Nat.log_eq_of_pow_le_of_lt_pow (by norm_num) (by norm_num)

theorem calcShift_seven : calcShift 7 = 18 := by
  rw [calcShift, log2_7acc]

theorem calcFactor_seven : calcFactor 7 = 37449 := by
  rw [calcFactor, calcShift_seven]
  norm_num

theorem log2_112699 : Nat.log2 112699 = 16 := by
  rw [Nat.log2_eq_log_two]
  exact Nat.log_eq_of_pow_le_of_lt_pow (by norm_num) (by norm_num)

theorem specCeilShift_seven : specCeilShift 7 = 19 := by
  rw [specCeilShift, if_neg (by rw [accuracy]; norm_num),
    show 7 * accuracy - 1 = 112699 by rw [accuracy], log2_112699]

/-! ## Theorems for the claims -/

/-- C7: legalizing an sdiv Operation whose two arguments are the
literals -7 and 2 constant-folds the whole operation into a single move
of the literal -3 (C++ division truncates toward zero); the by-constant
and general signed-division branches - the only ones emitting
make-positive or invert-sign sequences - are not taken. -/
theorem sdiv_literal_fold :
    lowerSdiv (Val.localV "out" TYPE_INT32) (Val.literal (-7) TYPE_INT32) (Val.literal 2 TYPE_INT32) =
      ArithLowering.foldToMove (Val.localV "out" TYPE_INT32) (Val.literal (-3) TYPE_INT32) := by
  rfl

/-- C6: lowering a semaphore increment/decrement call succeeds exactly
when the first argument is a literal within 0..15, in which case the
call is replaced by a single SemaphoreAdjustment carrying that id and
direction; otherwise a CompilationError is raised. -/
theorem semaphore_range :
    ∀ (inc : Bool) (arg : Val),
      (isOkE (intrinsifySemaphoreAccess inc arg) = true ↔
        ∃ i ty, arg = Val.literal i ty ∧ 0 ≤ i ∧ i < 16) ∧
      (∀ (i : Int) (ty : DataType), arg = Val.literal i ty → 0 ≤ i → i < 16 →
        intrinsifySemaphoreAccess inc arg = .ok (.semaphoreAdjustment i.toNat inc)) := by
  intro inc arg
  constructor
  · cases arg with
    | literal i ty =>
        by_cases h : i < 0 ∨ 16 ≤ i
        · rw [intrinsifySemaphoreAccess, if_pos h]
          constructor
          · intro hcon
            simp [isOkE] at hcon
          · rintro ⟨i2, t2, heq, h0, h16⟩
            cases heq
            exfalso
            omega
        · rw [intrinsifySemaphoreAccess, if_neg h]
          exact ⟨fun _ => ⟨i, ty, rfl, by omega, by omega⟩, fun _ => rfl⟩
    | smallImm v ty => simp [intrinsifySemaphoreAccess, isOkE]
    | reg r ty => simp [intrinsifySemaphoreAccess, isOkE]
    | localV n ty => simp [intrinsifySemaphoreAccess, isOkE]
    | temp k ty => simp [intrinsifySemaphoreAccess, isOkE]
    | container es ty => simp [intrinsifySemaphoreAccess, isOkE]
    | undef ty => simp [intrinsifySemaphoreAccess, isOkE]
  · intro i ty heq h0 h16
    subst heq
    rw [intrinsifySemaphoreAccess, if_neg (by omega)]

/-- C6 witness: lowering a semaphore increment with literal id 3
produces the single SemaphoreAdjustment instruction. -/
theorem semaphore_range_witness :
    intrinsifySemaphoreAccess true (Val.literal 3 TYPE_INT32) =
      Except.ok (Instr.semaphoreAdjustment 3 true) := by
  have h := (semaphore_range true (Val.literal 3 TYPE_INT32)).2 3 TYPE_INT32 rfl (by decide) (by decide)
  simpa using h

/-- C3: for each of the four SFU intrinsics, a call whose argument is
not a (foldable) literal is rewritten into exactly this sequence: a move
of the argument to the corresponding SFU input register, two
Nop(wait-sfu) instructions, then a move from the SFU output register
into the call's output. -/
theorem sfu_sequence :
    ∀ (name : String) (r : Reg) (out arg : Val) (cond : CondCode),
      sfuRegisterFor name = some r →
      arg.isLiteral = false →
      intrinsifyUnarySFU name out arg cond =
        some [Instr.move (Val.reg r TYPE_FLOAT) arg cond false,
              Instr.nop DelayType.waitSFU,
              Instr.nop DelayType.waitSFU,
              Instr.move out (Val.reg Reg.sfuOut out.ty) cond false] := by
  intro name r out arg cond h hlit
  simp [intrinsifyUnarySFU, h, hlit, intrinsifySFUInstruction, insertSFUCall]

/-- C3 witness: the rsqrt intrinsic on a non-literal argument emits the
write to the SFU recip-sqrt register, two wait-sfu nops and the read
from the SFU output, in that order. -/
theorem sfu_sequence_witness :
    intrinsifyUnarySFU "vc4cl_sfu_rsqrt" (Val.localV "out" TYPE_FLOAT) (Val.localV "x" TYPE_FLOAT) CondCode.always =
      some [Instr.move (Val.reg Reg.sfuRecipSqrt TYPE_FLOAT) (Val.localV "x" TYPE_FLOAT) CondCode.always false,
            Instr.nop DelayType.waitSFU,
            Instr.nop DelayType.waitSFU,
            Instr.move (Val.localV "out" TYPE_FLOAT) (Val.reg Reg.sfuOut TYPE_FLOAT) CondCode.always false] := by
  have h := sfu_sequence "vc4cl_sfu_rsqrt" Reg.sfuRecipSqrt
      (Val.localV "out" TYPE_FLOAT) (Val.localV "x" TYPE_FLOAT) CondCode.always rfl rfl
  simpa using h

/-- C2 counterexample: a multiplication of two non-literal 32-bit int
operands is not rewritten to mul24 (the claimed behaviour for the
int-times-int kernel); it is delegated to the signed
split-multiplication routine, because the 24-bit check is on the
operand types' scalar bit counts and int has 32. -/
theorem mul_int32_cex :
    lowerMul (Val.localV "out" TYPE_INT32) (Val.localV "a" TYPE_INT32) (Val.localV "b" TYPE_INT32) =
      ArithLowering.mulSignedSplit ∧
    ArithLowering.mulSignedSplit ≠
      ArithLowering.setOp "mul24" (Val.localV "a" TYPE_INT32) (Val.localV "b" TYPE_INT32) := by
  exact ⟨rfl, by simp⟩

/-- C2 (amended): a mul Operation whose operands are not both literals
and where neither operand is a literal power of two is rewritten in
place to the single mul24 opcode whenever both operand types are at most
24 bits wide; two 32-bit int operands instead take the signed
split-multiplication path. -/
theorem mul_small_mul24 :
    ∀ (out arg0 arg1 : Val),
      (arg0.isLiteral && arg1.isLiteral) = false →
      (arg0.isLiteral && isPowerTwo arg0.litInt) = false →
      (arg1.isLiteral && isPowerTwo arg1.litInt) = false →
      max arg0.ty.scalarBitCount arg1.ty.scalarBitCount ≤ 24 →
      lowerMul out arg0 arg1 = ArithLowering.setOp "mul24" arg0 arg1 := by
  intro out a0 a1 h1 h2 h3 h4
  simp [lowerMul, h1, h2, h3, h4]

/-- C2 witness: two non-literal 16-bit operands are rewritten in place
to mul24. -/
theorem mul_small_mul24_witness :
    lowerMul (Val.localV "out" TYPE_INT16) (Val.localV "a" TYPE_INT16) (Val.localV "b" TYPE_INT16) =
      ArithLowering.setOp "mul24" (Val.localV "a" TYPE_INT16) (Val.localV "b" TYPE_INT16) :=
  mul_small_mul24 (Val.localV "out" TYPE_INT16) (Val.localV "a" TYPE_INT16) (Val.localV "b" TYPE_INT16)
    rfl rfl rfl (by decide)

/-- C1 counterexample: for divisor 7 the division-by-constant path
computes factor 37449 and shift 18, not the claimed factor 18725 and
shift 17; and the code's shift (a truncated, i.e. floor, log2 plus 2)
differs from the claimed ceiling formula, which would give 19. -/
theorem div_const_seven_cex :
    calculateConstant 7 = Except.ok (37449, 18) ∧
    calculateConstant 7 ≠ Except.ok (18725, 17) ∧
    calcShift 7 ≠ specCeilShift 7 := by
  refine ⟨?_, ?_, ?_⟩
  · rw [calculateConstant]
    simp [calcShift_seven, calcFactor_seven]
  · rw [calculateConstant]
    simp [calcShift_seven, calcFactor_seven]
  · rw [calcShift_seven, specCeilShift_seven]
    omega

/-- C1 (amended): for an unsigned division lowered by the
division-by-constant path (dividend scalar width at most 16 bits,
literal divisor d, no overflow of the guards), the lowering computes
shift = floor(log2(d * 16100)) + 2 and factor = round(2 to the shift /
d), and emits the mul24 of the numerator by the factor followed by the
right-shift by the shift and the three-move correction (udivByConstSeq);
in particular for divisor 7 the emitted constants are factor 37449 and
shift 18. -/
theorem div_const_lowering :
    ∀ (nVal out : Val) (d : Nat) (ty : DataType) (k : Nat),
      nVal.ty.scalarBitCount ≤ 16 →
      calcShift d ≤ 31 →
      calcFactor d < 65535 →
      intrinsifyUnsignedIntegerDivisionByConstant nVal (Val.literal (d : Int) ty) out k =
        Except.ok (udivByConstSeq nVal (Val.literal (d : Int) ty)
          (Val.literal ((calcFactor d : Nat) : Int) ty) (Val.literal ((calcShift d : Nat) : Int) ty) out k) ∧
      calcShift d = Nat.log2 (d * 16100) + 2 ∧
      calcFactor d = (2 ^ (calcShift d + 1) + d) / (2 * d) := by
  intro nVal out d ty k hbc hs hf
  have h1 : ¬ (16 < nVal.ty.scalarBitCount) := by omega
  have h2 : ¬ (31 < calcShift d) := by omega
  have h3 : ¬ (65535 ≤ calcFactor d) := by omega
  refine ⟨?_, rfl, rfl⟩
  rw [intrinsifyUnsignedIntegerDivisionByConstant, if_neg h1,
    if_neg (by simp [Val.isLiteralValue])]
  simp only [calculateConstantV, Val.litInt, Int.toNat_natCast, calculateConstant]
  rw [if_neg h2, if_neg h3]
  rfl

/-- C1 witness: the divisor-7 lowering of a 16-bit dividend emits the
mul24-by-37449, shift-right-by-18 and three-move correction sequence. -/
theorem div_const_lowering_witness :
    intrinsifyUnsignedIntegerDivisionByConstant (Val.localV "n" TYPE_INT16) (Val.literal 7 TYPE_INT16)
        (Val.localV "q" TYPE_INT16) 0 =
      Except.ok (udivByConstSeq (Val.localV "n" TYPE_INT16) (Val.literal 7 TYPE_INT16)
        (Val.literal 37449 TYPE_INT16) (Val.literal 18 TYPE_INT16) (Val.localV "q" TYPE_INT16) 0) := by
  have h := (div_const_lowering (Val.localV "n" TYPE_INT16) (Val.localV "q" TYPE_INT16) 7 TYPE_INT16 0
      (by decide) (by rw [calcShift_seven]; omega) (by rw [calcFactor_seven]; omega)).1
  simpa [calcShift_seven, calcFactor_seven] using h

theorem clzLoop_zero : ∀ i, clzLoop 0 i = none := by
  intro i
  induction i with
  | zero => rfl
  | succ m ih => simp [clzLoop, Nat.zero_testBit, ih]

theorem testBit_log2_self (n : Nat) (h : 0 < n) : n.testBit (Nat.log2 n) = true := by
  have h1 : 2 ^ Nat.log2 n ≤ n := Nat.log2_self_le (by omega)
  have h2 : n < 2 ^ (Nat.log2 n + 1) := Nat.lt_log2_self
  have hpos : 0 < 2 ^ Nat.log2 n := Nat.pos_pow_of_pos _ (by norm_num)
  have hdiv1 : 1 ≤ n / 2 ^ Nat.log2 n := (Nat.le_div_iff_mul_le hpos).mpr (by omega)
  have hdiv2 : n / 2 ^ Nat.log2 n < 2 := by
    rw [Nat.div_lt_iff_lt_mul hpos]
    calc n < 2 ^ (Nat.log2 n + 1) := h2
    _ = 2 * 2 ^ Nat.log2 n := by ring
  have hdiv : n / 2 ^ Nat.log2 n = 1 := by omega
  rw [Nat.testBit_to_div_mod, hdiv]
  decide

theorem clzLoop_finds_log2 (n : Nat) (h : 0 < n) :
    ∀ j, Nat.log2 n < j → clzLoop n j = some (Nat.log2 n) := by
  intro j
  induction j with
  | zero => omega
  | succ m ih =>
      intro hm
      by_cases heq : Nat.log2 n = m
      · rw [clzLoop, ← heq, testBit_log2_self n h]
        simp
      · have hsmall : Nat.log2 n < m := by omega
        have hbit : n.testBit m = false := by
          apply Nat.testBit_eq_false_of_lt
          calc n < 2 ^ (Nat.log2 n + 1) := Nat.lt_log2_self
          _ ≤ 2 ^ m := Nat.pow_le_pow_right (by norm_num) (by omega)
        rw [clzLoop, hbit]
        simp only [Bool.false_eq_true, if_false]
        exact ih hsmall

/-- C9: the literal pre-calculation function clz returns the type's
scalar bit count w for input 0, and for every non-zero input below 2 to
the w (the bit patterns representable in the type's width) the number of
zero bits above the most-significant set bit, w - 1 - log2. -/
theorem clz_spec :
    ∀ (w : Nat), clz w 0 = w ∧
      ∀ (val : Nat), 0 < val → val < 2 ^ w → clz w val = w - 1 - Nat.log2 val := by
  intro w
  constructor
  · rw [clz, clzLoop_zero]
  · intro val h0 hw
    have hlt : Nat.log2 val < w := by
      by_contra hcon
      push_neg at hcon
      have hle : 2 ^ w ≤ 2 ^ Nat.log2 val := Nat.pow_le_pow_right (by norm_num) hcon
      have hself : 2 ^ Nat.log2 val ≤ val := Nat.log2_self_le (by omega)
      omega
    rw [clz, clzLoop_finds_log2 val h0 w hlt]

/-- C9 witness: for a 32-bit type, clz of 0 is 32 and clz of 6 is 29
(29 zero bits above the most-significant set bit 2). -/
theorem clz_spec_witness : clz 32 0 = 32 ∧ clz 32 6 = 29 := by
  have h := clz_spec 32
  have hlog : Nat.log2 6 = 2 := by
    rw [Nat.log2_eq_log_two]
    exact Nat.log_eq_of_pow_le_of_lt_pow (by norm_num) (by norm_num)
  refine ⟨h.1, ?_⟩
  rw [h.2 6 (by norm_num) (by norm_num), hlog]

theorem dropLeadChar_head (c : Char) (s : List Char) :
    dropLeadChar c s = if s.head? = some c then s.tail else s := by
  cases s with
  | nil => simp [dropLeadChar]
  | cons x xs =>
      by_cases h : x = c
      · simp [dropLeadChar, h]
      · simp [dropLeadChar, h]

/-- C10: getKernelInfos strips a single leading at sign from the method
name and a single leading percent sign from each parameter name (the
explicit parameter name, or the IR local name when that is empty); names
not starting with the sigil are stored unchanged, and the remaining
record fields are taken over as-is. -/
theorem kernel_name_strip :
    ∀ (m : MethodRec) (off len : Nat),
      ((getKernelInfos m off len).name =
        if m.name.head? = some '@' then m.name.tail else m.name) ∧
      ((getKernelInfos m off len).parameters.length = m.parameters.length) ∧
      (∀ (j : Nat) (p : ParameterRec), m.parameters[j]? = some p →
        ∃ q, (getKernelInfos m off len).parameters[j]? = some q ∧
          q.name =
            (if (if p.parameterName = [] then p.name else p.parameterName).head? = some '%'
             then (if p.parameterName = [] then p.name else p.parameterName).tail
             else (if p.parameterName = [] then p.name else p.parameterName)) ∧
          q.value = p.infoWord ∧ q.typeName = p.origTypeName) := by
  intro m off len
  refine ⟨?_, ?_, ?_⟩
  · rw [show (getKernelInfos m off len).name = dropLeadChar '@' m.name from rfl]
    exact dropLeadChar_head '@' m.name
  · simp [getKernelInfos]
  · intro j p hp
    have hq : (getKernelInfos m off len).parameters[j]? =
        some { value := p.infoWord
             , name := dropLeadChar '%' (if p.parameterName = [] then p.name else p.parameterName)
             , typeName := p.origTypeName } := by
      simp [getKernelInfos, List.getElem?_map, hp]
    exact ⟨_, hq, dropLeadChar_head '%' _, rfl, rfl⟩

/-- C10 witness: a method named with a leading at sign and a parameter
named with a leading percent sign are stored with the sigils stripped. -/
theorem kernel_name_strip_witness :
    (getKernelInfos ⟨['@', 'k'], [1, 1, 1], [⟨['%', 'p'], [], ['i'], 5⟩]⟩ 0 4).name = ['k'] ∧
    ∃ q, (getKernelInfos ⟨['@', 'k'], [1, 1, 1], [⟨['%', 'p'], [], ['i'], 5⟩]⟩ 0 4).parameters[(0 : Nat)]? =
        some q ∧ q.name = ['p'] := by
  have h := kernel_name_strip ⟨['@', 'k'], [1, 1, 1], [⟨['%', 'p'], [], ['i'], 5⟩]⟩ 0 4
  constructor
  · exact h.1.trans (by decide)
  · obtain ⟨q, hq, hname, _, _⟩ := h.2.2 0 ⟨['%', 'p'], [], ['i'], 5⟩ rfl
    exact ⟨q, hq, hname.trans (by decide)⟩

theorem guardA (m : Instr) (hm : m.isVecRot = false) :
    ∀ (n : Nat) (d s o : Val), [m][n]? = some (Instr.vectorRotation d s o) →
      0 < n ∧ [m][n - 1]? = some (Instr.nop DelayType.waitRegister) ∧
      (2 ≤ n → [m][n - 2]? ≠ some (Instr.nop DelayType.waitRegister)) := by
  intro n d s o h
  rcases n with _ | n
  · simp only [List.getElem?_cons_zero, Option.some.injEq] at h
    rw [h] at hm
    simp [Instr.isVecRot] at hm
  · simp at h

theorem guardB (d0 s0 o0 : Val) :
    ∀ (n : Nat) (d s o : Val),
      [Instr.nop DelayType.waitRegister, Instr.vectorRotation d0 s0 o0][n]? =
          some (Instr.vectorRotation d s o) →
      0 < n ∧
      [Instr.nop DelayType.waitRegister, Instr.vectorRotation d0 s0 o0][n - 1]? =
          some (Instr.nop DelayType.waitRegister) ∧
      (2 ≤ n → [Instr.nop DelayType.waitRegister, Instr.vectorRotation d0 s0 o0][n - 2]? ≠
          some (Instr.nop DelayType.waitRegister)) := by
  intro n d s o h
  rcases n with _ | _ | n
  · simp at h
  · exact ⟨by omega, by simp, fun hc => absurd hc (by omega)⟩
  · simp at h

theorem guardC (m : Instr) (d0 s0 o0 : Val) (hm : m.isVecRot = false)
    (hm2 : m ≠ Instr.nop DelayType.waitRegister) :
    ∀ (n : Nat) (d s o : Val),
      [m, Instr.nop DelayType.waitRegister, Instr.vectorRotation d0 s0 o0][n]? =
          some (Instr.vectorRotation d s o) →
      0 < n ∧
      [m, Instr.nop DelayType.waitRegister, Instr.vectorRotation d0 s0 o0][n - 1]? =
          some (Instr.nop DelayType.waitRegister) ∧
      (2 ≤ n → [m, Instr.nop DelayType.waitRegister, Instr.vectorRotation d0 s0 o0][n - 2]? ≠
          some (Instr.nop DelayType.waitRegister)) := by
  intro n d s o h
  rcases n with _ | _ | _ | n
  · simp only [List.getElem?_cons_zero, Option.some.injEq] at h
    rw [h] at hm
    simp [Instr.isVecRot] at hm
  · simp at h
  · exact ⟨by omega, by simp, fun _ hcon => hm2 (by simpa using hcon)⟩
  · simp at h

theorem guardD (m1 m2 m3 : Instr) (d0 s0 o0 : Val)
    (h1 : m1.isVecRot = false) (h2 : m2.isVecRot = false) (h3 : m3.isVecRot = false)
    (h3n : m3 ≠ Instr.nop DelayType.waitRegister) :
    ∀ (n : Nat) (d s o : Val),
      [m1, m2, m3, Instr.nop DelayType.waitRegister, Instr.vectorRotation d0 s0 o0][n]? =
          some (Instr.vectorRotation d s o) →
      0 < n ∧
      [m1, m2, m3, Instr.nop DelayType.waitRegister, Instr.vectorRotation d0 s0 o0][n - 1]? =
          some (Instr.nop DelayType.waitRegister) ∧
      (2 ≤ n →
        [m1, m2, m3, Instr.nop DelayType.waitRegister, Instr.vectorRotation d0 s0 o0][n - 2]? ≠
          some (Instr.nop DelayType.waitRegister)) := by
  intro n d s o h
  rcases n with _ | _ | _ | _ | _ | n
  · simp only [List.getElem?_cons_zero, Option.some.injEq] at h
    rw [h] at h1
    simp [Instr.isVecRot] at h1
  · simp only [List.getElem?_cons_succ, List.getElem?_cons_zero, Option.some.injEq] at h
    rw [h] at h2
    simp [Instr.isVecRot] at h2
  · simp only [List.getElem?_cons_succ, List.getElem?_cons_zero, Option.some.injEq] at h
    rw [h] at h3
    simp [Instr.isVecRot] at h3
  · simp at h
  · exact ⟨by omega, by simp, fun _ hcon => h3n (by simpa using hcon)⟩
  · simp at h

/-- C4: every VectorRotation emitted by insertVectorRotation is
immediately preceded by a single Nop(wait-register) (the element right
before it is that Nop and the one before that, if any, is not); and when
the source is a literal value, or the rotation offset normalizes to
zero, only a plain move to the destination is emitted - no
VectorRotation, no Nop. -/
theorem vecrot_nop :
    ∀ (src offset dest : Val) (dir : Direction),
      (∀ (n : Nat) (d s o : Val),
          (insertVectorRotation src offset dest dir)[n]? = some (Instr.vectorRotation d s o) →
          0 < n ∧
          (insertVectorRotation src offset dest dir)[n - 1]? =
              some (Instr.nop DelayType.waitRegister) ∧
          (2 ≤ n → (insertVectorRotation src offset dest dir)[n - 2]? ≠
              some (Instr.nop DelayType.waitRegister))) ∧
      (src.isLiteralValue = true →
          insertVectorRotation src offset dest dir = [Instr.move dest src CondCode.always false]) ∧
      (src.isLiteralValue = false → rotationOffsetZero offset dir = true →
          insertVectorRotation src offset dest dir = [Instr.move dest src CondCode.always false]) := by
  intro src offset dest dir
  by_cases hsrc : src.isLiteralValue = true
  · have hL : insertVectorRotation src offset dest dir = [.move dest src .always false] := by
      rw [insertVectorRotation.eq_def]
      simp [hsrc]
    rw [hL]
    refine ⟨guardA _ (by simp [Instr.isVecRot]), fun _ => rfl, fun hf _ => ?_⟩
    simp [hsrc] at hf
  · have hsrc2 : src.isLiteralValue = false := by simpa using hsrc
    refine ⟨?_, fun ht => absurd ht hsrc, ?_⟩
    · cases offset with
      | literal i oty =>
          by_cases hz : rotLiteralApplied i dir = 0
          · have hL : insertVectorRotation src (.literal i oty) dest dir =
                [.move dest src .always false] := by
              rw [insertVectorRotation.eq_def]
              simp [hsrc2, hz]
            rw [hL]
            exact guardA _ (by simp [Instr.isVecRot])
          · have hL : insertVectorRotation src (.literal i oty) dest dir =
                [.nop .waitRegister,
                 .vectorRotation dest src (.smallImm (fromRotationOffset (rotLiteralApplied i dir)) oty)] := by
              rw [insertVectorRotation.eq_def]
              simp [hsrc2, hz]
            rw [hL]
            exact guardB _ _ _
      | smallImm v oty =>
          by_cases hint : (smallImmIntegerValue v).isSome = true
          · by_cases hz : rotSmallImmApplied v dir = 0
            · have hL : insertVectorRotation src (.smallImm v oty) dest dir =
                  [.move dest src .always false] := by
                rw [insertVectorRotation.eq_def]
                simp [hsrc2, hint, hz]
              rw [hL]
              exact guardA _ (by simp [Instr.isVecRot])
            · have hL : insertVectorRotation src (.smallImm v oty) dest dir =
                  [.nop .waitRegister,
                   .vectorRotation dest src (.smallImm (fromRotationOffset (rotSmallImmApplied v dir)) oty)] := by
                rw [insertVectorRotation.eq_def]
                simp [hsrc2, hint, hz]
              rw [hL]
              exact guardB _ _ _
          · have hint2 : (smallImmIntegerValue v).isSome = false := by simpa using hint
            have hL : insertVectorRotation src (.smallImm v oty) dest dir =
                [.nop .waitRegister, .vectorRotation dest src (.smallImm v oty)] := by
              rw [insertVectorRotation.eq_def]
              simp [hsrc2, hint2]
            rw [hL]
            exact guardB _ _ _
      | reg r oty =>
          cases dir with
          | up =>
              have hL : insertVectorRotation src (.reg r oty) dest .up =
                  [.move ROTATION_REGISTER (.reg r oty) .always false,
                   .nop .waitRegister, .vectorRotation dest src ROTATION_REGISTER] := by
                rw [insertVectorRotation.eq_def]
                simp [hsrc2]
              rw [hL]
              exact guardC _ _ _ _ (by simp [Instr.isVecRot]) (by simp)
          | down =>
              have hL : insertVectorRotation src (.reg r oty) dest .down =
                  [.move NOP_REGISTER (.reg r oty) .always true,
                   .op "sub" ROTATION_REGISTER (.literal 16 TYPE_INT8) (some (.reg r oty)) .zeroClear false,
                   .move ROTATION_REGISTER INT_ZERO .zeroSet false,
                   .nop .waitRegister, .vectorRotation dest src ROTATION_REGISTER] := by
                rw [insertVectorRotation.eq_def]
                simp [hsrc2]
              rw [hL]
              exact guardD _ _ _ _ _ _ (by simp [Instr.isVecRot]) (by simp [Instr.isVecRot])
                (by simp [Instr.isVecRot]) (by simp)
      | localV nm oty =>
          cases dir with
          | up =>
              have hL : insertVectorRotation src (.localV nm oty) dest .up =
                  [.move ROTATION_REGISTER (.localV nm oty) .always false,
                   .nop .waitRegister, .vectorRotation dest src ROTATION_REGISTER] := by
                rw [insertVectorRotation.eq_def]
                simp [hsrc2]
              rw [hL]
              exact guardC _ _ _ _ (by simp [Instr.isVecRot]) (by simp)
          | down =>
              have hL : insertVectorRotation src (.localV nm oty) dest .down =
                  [.move NOP_REGISTER (.localV nm oty) .always true,
                   .op "sub" ROTATION_REGISTER (.literal 16 TYPE_INT8) (some (.localV nm oty)) .zeroClear false,
                   .move ROTATION_REGISTER INT_ZERO .zeroSet false,
                   .nop .waitRegister, .vectorRotation dest src ROTATION_REGISTER] := by
                rw [insertVectorRotation.eq_def]
                simp [hsrc2]
              rw [hL]
              exact guardD _ _ _ _ _ _ (by simp [Instr.isVecRot]) (by simp [Instr.isVecRot])
                (by simp [Instr.isVecRot]) (by simp)
      | temp k oty =>
          cases dir with
          | up =>
              have hL : insertVectorRotation src (.temp k oty) dest .up =
                  [.move ROTATION_REGISTER (.temp k oty) .always false,
                   .nop .waitRegister, .vectorRotation dest src ROTATION_REGISTER] := by
                rw [insertVectorRotation.eq_def]
                simp [hsrc2]
              rw [hL]
              exact guardC _ _ _ _ (by simp [Instr.isVecRot]) (by simp)
          | down =>
              have hL : insertVectorRotation src (.temp k oty) dest .down =
                  [.move NOP_REGISTER (.temp k oty) .always true,
                   .op "sub" ROTATION_REGISTER (.literal 16 TYPE_INT8) (some (.temp k oty)) .zeroClear false,
                   .move ROTATION_REGISTER INT_ZERO .zeroSet false,
                   .nop .waitRegister, .vectorRotation dest src ROTATION_REGISTER] := by
                rw [insertVectorRotation.eq_def]
                simp [hsrc2]
              rw [hL]
              exact guardD _ _ _ _ _ _ (by simp [Instr.isVecRot]) (by simp [Instr.isVecRot])
                (by simp [Instr.isVecRot]) (by simp)
      | container es oty =>
          cases dir with
          | up =>
              have hL : insertVectorRotation src (.container es oty) dest .up =
                  [.move ROTATION_REGISTER (.container es oty) .always false,
                   .nop .waitRegister, .vectorRotation dest src ROTATION_REGISTER] := by
                rw [insertVectorRotation.eq_def]
                simp [hsrc2]
              rw [hL]
              exact guardC _ _ _ _ (by simp [Instr.isVecRot]) (by simp)
          | down =>
              have hL : insertVectorRotation src (.container es oty) dest .down =
                  [.move NOP_REGISTER (.container es oty) .always true,
                   .op "sub" ROTATION_REGISTER (.literal 16 TYPE_INT8) (some (.container es oty)) .zeroClear false,
                   .move ROTATION_REGISTER INT_ZERO .zeroSet false,
                   .nop .waitRegister, .vectorRotation dest src ROTATION_REGISTER] := by
                rw [insertVectorRotation.eq_def]
                simp [hsrc2]
              rw [hL]
              exact guardD _ _ _ _ _ _ (by simp [Instr.isVecRot]) (by simp [Instr.isVecRot])
                (by simp [Instr.isVecRot]) (by simp)
      | undef oty =>
          cases dir with
          | up =>
              have hL : insertVectorRotation src (.undef oty) dest .up =
                  [.move ROTATION_REGISTER (.undef oty) .always false,
                   .nop .waitRegister, .vectorRotation dest src ROTATION_REGISTER] := by
                rw [insertVectorRotation.eq_def]
                simp [hsrc2]
              rw [hL]
              exact guardC _ _ _ _ (by simp [Instr.isVecRot]) (by simp)
          | down =>
              have hL : insertVectorRotation src (.undef oty) dest .down =
                  [.move NOP_REGISTER (.undef oty) .always true,
                   .op "sub" ROTATION_REGISTER (.literal 16 TYPE_INT8) (some (.undef oty)) .zeroClear false,
                   .move ROTATION_REGISTER INT_ZERO .zeroSet false,
                   .nop .waitRegister, .vectorRotation dest src ROTATION_REGISTER] := by
                rw [insertVectorRotation.eq_def]
                simp [hsrc2]
              rw [hL]
              exact guardD _ _ _ _ _ _ (by simp [Instr.isVecRot]) (by simp [Instr.isVecRot])
                (by simp [Instr.isVecRot]) (by simp)
    · intro _ hzero
      cases offset with
      | literal i oty =>
          have hz : rotLiteralApplied i dir = 0 := by
            simpa [rotationOffsetZero] using hzero
          rw [insertVectorRotation.eq_def]
          simp [hsrc2, hz]
      | smallImm v oty =>
          have hz : (smallImmIntegerValue v).isSome = true ∧ rotSmallImmApplied v dir = 0 := by
            simpa [rotationOffsetZero] using hzero
          rw [insertVectorRotation.eq_def]
          simp [hsrc2, hz.1, hz.2]
      | reg r oty => simp [rotationOffsetZero] at hzero
      | localV nm oty => simp [rotationOffsetZero] at hzero
      | temp k oty => simp [rotationOffsetZero] at hzero
      | container es oty => simp [rotationOffsetZero] at hzero
      | undef oty => simp [rotationOffsetZero] at hzero

/-- C4 witness: rotating a non-literal vector up by the literal offset 3
emits exactly a Nop(wait-register) followed by the VectorRotation, and a
literal source collapses to a plain move. -/
theorem vecrot_nop_witness :
    (0 < 1 ∧
      (insertVectorRotation (Val.localV "v" ⟨32, 16⟩) (Val.literal 3 TYPE_INT8) (Val.localV "d" ⟨32, 16⟩) Direction.up)[1 - 1]? =
          some (Instr.nop DelayType.waitRegister) ∧
      (2 ≤ 1 → (insertVectorRotation (Val.localV "v" ⟨32, 16⟩) (Val.literal 3 TYPE_INT8) (Val.localV "d" ⟨32, 16⟩) Direction.up)[1 - 2]? ≠
          some (Instr.nop DelayType.waitRegister))) ∧
    insertVectorRotation (Val.literal 9 TYPE_INT32) (Val.literal 3 TYPE_INT8) (Val.localV "d" ⟨32, 16⟩) Direction.up =
      [Instr.move (Val.localV "d" ⟨32, 16⟩) (Val.literal 9 TYPE_INT32) CondCode.always false] := by
  constructor
  · exact (vecrot_nop (Val.localV "v" ⟨32, 16⟩) (Val.literal 3 TYPE_INT8) (Val.localV "d" ⟨32, 16⟩) Direction.up).1
      1 (Val.localV "d" ⟨32, 16⟩) (Val.localV "v" ⟨32, 16⟩) (Val.smallImm 51 TYPE_INT8) rfl
  · exact (vecrot_nop (Val.literal 9 TYPE_INT32) (Val.literal 3 TYPE_INT8) (Val.localV "d" ⟨32, 16⟩) Direction.up).2.1 rfl

/-- C5 counterexample: in the general shuffle case, a mask lane whose
index is undefined is not skipped.  For two 4-wide sources and an
undefined mask element at destination lane 1, the per-lane loop emits a
full extract/insert pair (extracting lane 0 of source0 and conditionally
writing destination lane 1), not the empty instruction list. -/
theorem shuffle_undef_lane_cex :
    shuffleLane (Val.localV "d" ⟨32, 4⟩) (Val.localV "a" ⟨32, 4⟩) (Val.localV "b" ⟨32, 4⟩) 1
        (Val.undef TYPE_INT32) 2 =
      Except.ok [Instr.move (Val.temp 2 ⟨32, 1⟩) (Val.localV "a" ⟨32, 4⟩) CondCode.always false,
                 Instr.nop DelayType.waitRegister,
                 Instr.vectorRotation (Val.temp 3 ⟨32, 1⟩) (Val.temp 2 ⟨32, 1⟩) (Val.smallImm 49 TYPE_INT8),
                 Instr.op "xor" NOP_REGISTER ELEMENT_NUMBER_REGISTER (some (Val.literal 1 TYPE_INT8)) CondCode.always true,
                 Instr.move (Val.localV "d" ⟨32, 4⟩) (Val.temp 3 ⟨32, 1⟩) CondCode.zeroSet false] ∧
    shuffleLane (Val.localV "d" ⟨32, 4⟩) (Val.localV "a" ⟨32, 4⟩) (Val.localV "b" ⟨32, 4⟩) 1
        (Val.undef TYPE_INT32) 2 ≠ Except.ok [] := by
  constructor
  · rfl
  · intro hcon
    rw [show shuffleLane (Val.localV "d" ⟨32, 4⟩) (Val.localV "a" ⟨32, 4⟩) (Val.localV "b" ⟨32, 4⟩) 1
        (Val.undef TYPE_INT32) 2 =
      Except.ok [Instr.move (Val.temp 2 ⟨32, 1⟩) (Val.localV "a" ⟨32, 4⟩) CondCode.always false,
                 Instr.nop DelayType.waitRegister,
                 Instr.vectorRotation (Val.temp 3 ⟨32, 1⟩) (Val.temp 2 ⟨32, 1⟩) (Val.smallImm 49 TYPE_INT8),
                 Instr.op "xor" NOP_REGISTER ELEMENT_NUMBER_REGISTER (some (Val.literal 1 TYPE_INT8)) CondCode.always true,
                 Instr.move (Val.localV "d" ⟨32, 4⟩) (Val.temp 3 ⟨32, 1⟩) CondCode.zeroSet false] from rfl] at hcon
    simp at hcon

/-- C5 (amended): in the general shuffle case an undefined mask lane is
not skipped: it is replaced by the index 0, so the loop emits for it the
extraction of lane 0 of source0 (for a source0 of non-zero vector width)
and the conditional insertion at the corresponding destination lane,
exactly as for an explicit zero mask index. -/
theorem shuffle_undef_lane_zero :
    ∀ (dest s0 s1 : Val) (i : Nat) (ty : DataType) (k : Nat),
      shuffleLane dest s0 s1 i (Val.undef ty) k = shuffleLane dest s0 s1 i INT_ZERO k ∧
      (0 < s0.ty.vectorWidth →
        shuffleLane dest s0 s1 i (Val.undef ty) k =
          Except.ok (insertVectorExtraction s0 (Val.literal 0 TYPE_INT8) (Val.temp k s0.ty.getElementType) ++
            insertVectorInsertion dest (Val.literal (i : Int) TYPE_INT8) (Val.temp k s0.ty.getElementType) (k + 1))) := by
  intro dest s0 s1 i ty k
  constructor
  · rfl
  · intro hw
    have hlt : (0 : Int) < (s0.ty.vectorWidth : Int) := by exact_mod_cast hw
    have hnle : ¬ ((s0.ty.vectorWidth : Int) ≤ 0) := not_le.mpr hlt
    rw [shuffleLane]
    simp [INT_ZERO, Val.isUndefined, Val.isLiteral, Val.litInt, hlt, hnle]

/-- C5 witness: for a 4-wide source0, the undefined-lane emission at
destination lane 1 equals the explicit-index-0 emission. -/
theorem shuffle_undef_lane_zero_witness :
    shuffleLane (Val.localV "d" ⟨32, 4⟩) (Val.localV "a" ⟨32, 4⟩) (Val.localV "b" ⟨32, 4⟩) 1
        (Val.undef TYPE_INT32) 2 =
      Except.ok (insertVectorExtraction (Val.localV "a" ⟨32, 4⟩) (Val.literal 0 TYPE_INT8) (Val.temp 2 ⟨32, 1⟩) ++
        insertVectorInsertion (Val.localV "d" ⟨32, 4⟩) (Val.literal 1 TYPE_INT8) (Val.temp 2 ⟨32, 1⟩) 3) := by
  have h := (shuffle_undef_lane_zero (Val.localV "d" ⟨32, 4⟩) (Val.localV "a" ⟨32, 4⟩)
      (Val.localV "b" ⟨32, 4⟩) 1 TYPE_INT32 2).2 (by simp [Val.ty])
  simpa using h

theorem padTo_length (a : Nat) (bytes : List Nat) :
    (padTo a bytes).length = bytes.length + (a - bytes.length % a) % a := by
  simp [padTo]

theorem padTo_mod (a : Nat) (h : 0 < a) (bytes : List Nat) :
    (padTo a bytes).length % a = 0 := by
  rw [padTo_length]
  rcases Nat.eq_zero_or_pos (bytes.length % a) with h0 | hpos
  · simp [h0, Nat.mod_self]
  · have hlt : bytes.length % a < a := Nat.mod_lt _ h
    have hsub : (a - bytes.length % a) % a = a - bytes.length % a :=
      Nat.mod_eq_of_lt (by omega)
    rw [hsub, Nat.add_mod, hsub,
      show bytes.length % a + (a - bytes.length % a) = a from by omega, Nat.mod_self]

theorem chunkWords_len : ∀ (n : Nat) (bs : List Nat), bs.length ≤ n →
    (chunkWords bs).length = (bs.length + 7) / 8 := by
  intro n
  induction n with
  | zero =>
      intro bs hb
      have hnil : bs = [] := List.eq_nil_of_length_eq_zero (by omega)
      subst hnil
      simp [chunkWords]
  | succ m ih =>
      intro bs hb
      match bs with
      | [] => simp [chunkWords]
      | b :: rest =>
          rw [chunkWords]
          simp only [List.length_cons]
          rw [ih (rest.drop 7) (by simp only [List.length_drop]; simp at hb; omega)]
          simp only [List.length_drop]
          omega

theorem dataSegmentCore_append (gs : List GlobalRec) (g : GlobalRec) :
    dataSegmentCore (gs ++ [g]) = padTo g.alignment (dataSegmentCore gs) ++ toBinary g.value := by
  rw [dataSegmentCore, dataSegmentCore, List.foldl_append]
  rfl

/-- C8: ModuleInfo::write in the binary/hex modes emits magic and
module-info words, the kernel-info records, a zero delimiter word, the
global-data segment and a final zero delimiter; the word count right
after the first delimiter (2 + kernel words + 1) is recorded as the
global-data offset and points at the first data word; the data segment
pads each global to its alignment before its initializer, is padded as a
whole to a multiple of 8 bytes, and its word count is recorded as the
global-data size, with the second zero delimiter directly after it. -/
theorem module_write_layout :
    ∀ (magic32 infoWord : Nat) (kernels : List KernelInfoRec) (globals : List GlobalRec),
      (moduleWrite magic32 infoWord kernels globals).stream =
          (magic32 + magic32 * 2 ^ 32) :: infoWord :: (kernelWordsOf kernels ++ [0]) ++
            (chunkWords (generateDataSegment globals) ++ [0]) ∧
      (moduleWrite magic32 infoWord kernels globals).globalDataOffset =
          2 + (kernelWordsOf kernels).length + 1 ∧
      (moduleWrite magic32 infoWord kernels globals).stream.drop (2 + (kernelWordsOf kernels).length) =
          0 :: (chunkWords (generateDataSegment globals) ++ [0]) ∧
      (generateDataSegment globals).length % 8 = 0 ∧
      (moduleWrite magic32 infoWord kernels globals).globalDataSize =
          (generateDataSegment globals).length / 8 ∧
      (chunkWords (generateDataSegment globals)).length =
          (moduleWrite magic32 infoWord kernels globals).globalDataSize ∧
      (moduleWrite magic32 infoWord kernels globals).stream.drop
          ((moduleWrite magic32 infoWord kernels globals).globalDataOffset +
            (moduleWrite magic32 infoWord kernels globals).globalDataSize) = [0] ∧
      (∀ (gs : List GlobalRec) (g : GlobalRec) (rest : List GlobalRec),
          globals = gs ++ g :: rest → 0 < g.alignment →
          (padTo g.alignment (dataSegmentCore gs)).length % g.alignment = 0 ∧
          dataSegmentCore (gs ++ [g]) = padTo g.alignment (dataSegmentCore gs) ++ toBinary g.value) := by
  intro magic32 infoWord kernels globals
  have hmod : (generateDataSegment globals).length % 8 = 0 :=
    padTo_mod 8 (by norm_num) _
  have hlen : (chunkWords (generateDataSegment globals)).length =
      (generateDataSegment globals).length / 8 := by
    rw [chunkWords_len (generateDataSegment globals).length _ le_rfl]
    omega
  refine ⟨rfl, ?_, ?_, hmod, rfl, hlen, ?_, ?_⟩
  · simp [moduleWrite]
    omega
  · have hstream : (moduleWrite magic32 infoWord kernels globals).stream =
        ((magic32 + magic32 * 2 ^ 32) :: infoWord :: kernelWordsOf kernels) ++
          (0 :: (chunkWords (generateDataSegment globals) ++ [0])) := by
      simp [moduleWrite]
    rw [hstream, List.drop_left' (by simp; omega)]
  · have hstream2 : (moduleWrite magic32 infoWord kernels globals).stream =
        (((magic32 + magic32 * 2 ^ 32) :: infoWord :: (kernelWordsOf kernels ++ [0])) ++
          chunkWords (generateDataSegment globals)) ++ [0] := by
      simp [moduleWrite]
    have hlenEq : (((magic32 + magic32 * 2 ^ 32) :: infoWord :: (kernelWordsOf kernels ++ [0])) ++
        chunkWords (generateDataSegment globals)).length =
        (moduleWrite magic32 infoWord kernels globals).globalDataOffset +
          (moduleWrite magic32 infoWord kernels globals).globalDataSize := by
      simp only [List.length_append, List.length_cons, hlen, moduleWrite]
    rw [hstream2, List.drop_left' hlenEq]
  · intro gs g rest hdecomp halign
    exact ⟨padTo_mod _ halign _, dataSegmentCore_append gs g⟩

/-- C8 witness: a module with one kernel (name of one character, no
parameters) and one global of alignment 4 with a 4-byte initializer:
the recorded global-data offset is 6 (magic, info, three kernel words,
delimiter), the delimiter and data words follow at that point, and the
padding of the global to its alignment holds. -/
theorem module_write_layout_witness :
    (moduleWrite 1 2 [⟨10, 20, ['k'], []⟩] [⟨4, BinValue.intLit 5 4 1⟩]).globalDataOffset = 6 ∧
    (padTo 4 (dataSegmentCore ([] : List GlobalRec))).length % 4 = 0 ∧
    (moduleWrite 1 2 [⟨10, 20, ['k'], []⟩] [⟨4, BinValue.intLit 5 4 1⟩]).stream.drop 5 =
      0 :: (chunkWords (generateDataSegment [⟨4, BinValue.intLit 5 4 1⟩]) ++ [0]) := by
  have h := module_write_layout 1 2 [⟨10, 20, ['k'], []⟩] [⟨4, BinValue.intLit 5 4 1⟩]
  have hkw : (kernelWordsOf [(⟨10, 20, ['k'], []⟩ : KernelInfoRec)]).length = 3 := by
    simp [kernelWordsOf, kernelInfoWrite, paramWordsOf, bytesOfChars, chunkWords]
  refine ⟨?_, ?_, ?_⟩
  · rw [h.2.1, hkw]
  · exact (h.2.2.2.2.2.2.2 [] ⟨4, BinValue.intLit 5 4 1⟩ [] rfl (by norm_num)).1
  · have hc := h.2.2.1
    rw [hkw] at hc
    exact hc

end VC4C
